import Mathlib

/-!
Verification development for the curvature-comb rendering core of
`plugins/canvas/curvature/curvature_comb_plugin/plugin.py`.

The plugin consumes a duck-typed `layer_data` dictionary (shapes holding
node lists), extracts cubic Bézier segments, samples curvature along each
segment, normalizes per path, and emits filled "comb tooth" quadrilaterals.

We embed the dynamically-typed Python values as the inductive `PyVal`, and
the dictionary/list primitives the plugin uses (`in`, `.get`, indexing,
`len`, iteration, `float(...)`, truthiness) as functions into
`Except PyErr _`, so the exception behaviour of the source is captured
exactly.  Geometry is embedded over `ℝ`: Python float arithmetic is
modelled by exact real arithmetic (every real is finite, so the source's
`math.isfinite` guard is identically true in the model and noted where it
occurs); `x ** 1.5` becomes `Real.rpow`, `math.sqrt` becomes `Real.sqrt`.
Coordinates read from node dictionaries are rationals (`ℚ`), cast to `ℝ`
at the point where the source calls `float(...)`, which keeps the segment
extractor fully executable.
-/

namespace CurvatureComb

/-- Python runtime errors the plugin's operations can raise. -/
inductive PyErr where
  | typeError : PyErr
  | attributeError : PyErr
  | keyError : PyErr
  | indexError : PyErr
deriving DecidableEq

/-- Dynamically-typed Python values: dictionaries with string keys, lists,
numbers (ints and floats, carried exactly as rationals), strings, and
`None`. -/
inductive PyVal where
  | dict : List (String × PyVal) → PyVal
  | list : List PyVal → PyVal
  | num : ℚ → PyVal
  | str : String → PyVal
  | pyNone : PyVal

/-- First-match association-list lookup, the model of string-keyed Python
dictionary lookup. -/
def dictGet : List (String × PyVal) → String → Option PyVal
  | [], _ => Option.none
  | (k, v) :: rest, key => if k = key then some v else dictGet rest key

/-- Python truthiness: empty containers, empty strings, zero and `None`
are falsy. -/
def pyTruthy : PyVal → Bool
  | .dict kvs => !kvs.isEmpty
  | .list xs => !xs.isEmpty
  | .str s => !(s.isEmpty)
  | .num q => q != 0
  | .pyNone => false

/-- Is the needle a substring of the haystack (char-list form)?  Models
Python's `needle in haystack_string`. -/
def containsCharList : List Char → List Char → Bool
  | needle, [] => needle.isEmpty
  | needle, c :: rest => needle.isPrefixOf (c :: rest) || containsCharList needle rest

/-- Substring test on strings. -/
def strContains (hay needle : String) : Bool :=
  containsCharList needle.toList hay.toList

/-- Python `value == "k"` for an arbitrary value: only an equal string
compares equal. -/
def isStrVal (k : String) : PyVal → Bool
  | .str s => s = k
  | _ => false

/-- Python `k in v`: key membership for dicts, element membership for
lists, substring for strings; `TypeError` for numbers and `None`. -/
def pyIn (k : String) (v : PyVal) : Except PyErr Bool :=
  match v with
  | .dict kvs => .ok (dictGet kvs k).isSome
  | .list xs => .ok (xs.any (isStrVal k))
  | .str s => .ok (strContains s k)
  | _ => .error .typeError

/-- Python `v.get(k, dflt)`: only dictionaries have `.get`; anything else
raises `AttributeError`. -/
def pyGet (v : PyVal) (k : String) (dflt : PyVal) : Except PyErr PyVal :=
  match v with
  | .dict kvs => .ok ((dictGet kvs k).getD dflt)
  | _ => .error .attributeError

/-- Python `v[k]` with a string key: dict lookup (`KeyError` when absent),
`TypeError` on every other value. -/
def pySubscript (v : PyVal) (k : String) : Except PyErr PyVal :=
  match v with
  | .dict kvs =>
    match dictGet kvs k with
    | some x => .ok x
    | Option.none => .error .keyError
  | _ => .error .typeError

/-- Python `v[i]` with a nonnegative integer index: list element, one-char
string for strings, `KeyError` for string-keyed dicts, `TypeError`
otherwise. -/
def pyIndex (v : PyVal) (i : ℕ) : Except PyErr PyVal :=
  match v with
  | .list xs =>
    match xs[i]? with
    | some x => .ok x
    | Option.none => .error .indexError
  | .str s =>
    match s.toList[i]? with
    | some c => .ok (.str (String.singleton c))
    | Option.none => .error .indexError
  | .dict _ => .error .keyError
  | _ => .error .typeError

/-- Values on which Python's `len(...)` and iteration succeed in this
model: dicts, lists and strings. -/
def pySized : PyVal → Bool
  | .dict _ => true
  | .list _ => true
  | .str _ => true
  | _ => false

/-- Underlying length of a sized value. -/
def pyLenCore : PyVal → ℕ
  | .dict kvs => kvs.length
  | .list xs => xs.length
  | .str s => s.length
  | _ => 0

/-- Python `len(v)`. -/
def pyLen (v : PyVal) : Except PyErr ℕ :=
  if pySized v then .ok (pyLenCore v) else .error .typeError

/-- Underlying element sequence of a sized value: list elements, one-char
strings for a string, keys for a dict. -/
def pyIterCore : PyVal → List PyVal
  | .list xs => xs
  | .str s => s.toList.map (fun c => .str (String.singleton c))
  | .dict kvs => kvs.map (fun kv => .str kv.1)
  | _ => []

/-- Python iteration (`for x in v`). -/
def pyIter (v : PyVal) : Except PyErr (List PyVal) :=
  if pySized v then .ok (pyIterCore v) else .error .typeError

/-- Python `float(v)`.  Numbers convert exactly; every other value is a
conversion failure.  (Parsing of numeric strings is not modelled: node
coordinates in this repository are numbers, and in the extractor the
conversion sits inside a `try`/`except` whose handler advances the scan by
one, the same recovery the model performs.) -/
def pyFloat : PyVal → Except PyErr ℚ
  | .num q => .ok q
  | _ => .error .typeError

/-- A cubic Bézier segment as extracted from four consecutive nodes
(`p0`,`p3` on-curve endpoints, `p1`,`p2` off-curve controls), with the
exact rational coordinates read from the node dictionaries. -/
structure SegQ where
  p0 : ℚ × ℚ
  p1 : ℚ × ℚ
  p2 : ℚ × ℚ
  p3 : ℚ × ℚ
deriving DecidableEq

/-- Is `v` an on-curve node?  Mirrors `node.get('type', 'l') in
('c', 'cs', 'l', 'ls')` guarded by `isinstance(node, dict)`; a non-string
`type` value compares unequal to every string, hence no match. -/
def nodeOnCurve (v : PyVal) : Bool :=
  match v with
  | .dict kvs =>
    match (dictGet kvs "type").getD (.str "l") with
    | .str s => s = "c" || s = "cs" || s = "l" || s = "ls"
    | _ => false
  | _ => false

/-- Is `v` an off-curve control node?  Mirrors `n.get('type') == 'o'`
(default `None`), guarded by `isinstance(n, dict)`. -/
def nodeOff (v : PyVal) : Bool :=
  match v with
  | .dict kvs =>
    match dictGet kvs "type" with
    | some (.str s) => s = "o"
    | _ => false
  | _ => false

/-- Does index `i` start an on/off/off/on cubic run?  This is the
condition of `_collect_curve_data`'s look-ahead (lines 174-194 of the
source): fetch `nodes[i]` and `nodes[(i+j) % len(nodes)]` for j = 1,2,3,
require all four to be dicts, and require the on-off-off-on type pattern.
A fetch that raises (string-keyed dict, non-sized value) lands in the
loop's `except` handler, which advances the scan by one — the same
outcome as a failed pattern, so both map to `false` here. -/
def typeRunAt (nodes : PyVal) (len i : ℕ) : Bool :=
  match (pyIndex nodes i).toOption, (pyIndex nodes ((i + 1) % len)).toOption,
      (pyIndex nodes ((i + 2) % len)).toOption, (pyIndex nodes ((i + 3) % len)).toOption with
  | some n, some n1, some n2, some n3 =>
    nodeOnCurve n && nodeOff n1 && nodeOff n2 && nodeOnCurve n3
  | _, _, _, _ => false

/-- Read the `('x', 'y')` coordinates of a node: `'x' in n and 'y' in n`
followed by `float(n['x'])`, `float(n['y'])`.  A missing key makes the
source advance the scan by one; a failing `float` raises into the loop's
handler which also advances by one; both are `none` here. -/
def nodeXY (v : PyVal) : Option (ℚ × ℚ) :=
  match v with
  | .dict kvs =>
    match dictGet kvs "x", dictGet kvs "y" with
    | some xv, some yv =>
      match pyFloat xv, pyFloat yv with
      | .ok x, .ok y => some (x, y)
      | _, _ => Option.none
    | _, _ => Option.none
  | _ => Option.none

/-- One probe of the extractor at index `i`: `some seg` exactly when the
source's loop body reaches `i += 3` having built the four control points;
every other outcome (failed pattern, missing coordinate, failed
conversion, caught exception) advances by one and is `none`. -/
def matchAt (nodes : PyVal) (len i : ℕ) : Option SegQ :=
  if typeRunAt nodes len i then
    match (pyIndex nodes i).toOption, (pyIndex nodes ((i + 1) % len)).toOption,
        (pyIndex nodes ((i + 2) % len)).toOption, (pyIndex nodes ((i + 3) % len)).toOption with
    | some n, some n1, some n2, some n3 =>
      match nodeXY n, nodeXY n1, nodeXY n2, nodeXY n3 with
      | some a, some b, some c, some d => some ⟨a, b, c, d⟩
      | _, _, _, _ => Option.none
    | _, _, _, _ => Option.none
  else Option.none

/-- The extractor's `while i < max_iterations` scan: on a full match the
segment is recorded and `i` advances by 3, otherwise `i` advances by 1;
the loop exits as soon as `i` reaches `len`. -/
def scanFrom (nodes : PyVal) (len i : ℕ) : List SegQ :=
  if _h : i < len then
    match matchAt nodes len i with
    | some s => s :: scanFrom nodes len (i + 3)
    | Option.none => scanFrom nodes len (i + 1)
  else []
termination_by len - i
decreasing_by
· omega
· omega

/-- Segment extraction from a node list: the `if not nodes or
len(nodes) < 2: return` guard followed by the scan with
`max_iterations = len(nodes)`. -/
def collect_segments (nodes : List PyVal) : List SegQ :=
  if nodes.length < 2 then [] else scanFrom (.list nodes) nodes.length 0

/-- `SAMPLES_PER_CURVE` class constant (number of samples per segment).
The sampling functions below take the count as the parameter `N`, with
this value as the plugin's configuration. -/
def SAMPLES_PER_CURVE : ℕ := 50

/-- `OPACITY` class constant: fixed alpha of every comb tooth. -/
noncomputable def OPACITY : ℝ := 0.4

/-- `SCALE_FACTOR` property: `2000 + self.get_parameter('scale_factor') * 250`,
as a function of the stored `scale_factor` parameter (slider default 50). -/
noncomputable def SCALE_FACTOR (scaleParam : ℝ) : ℝ := 2000 + scaleParam * 250

/-- `_cubic_bezier_point`: clamp `t` to `[0, 1]` and evaluate the cubic
Bernstein form.  The source's `try`/`except` returning `(0, 0)` is dead in
the real-number model (the arithmetic is total). -/
noncomputable def cubic_bezier_point (p0 p1 p2 p3 : ℝ × ℝ) (t : ℝ) : ℝ × ℝ :=
  let tc := max 0 (min 1 t)
  let t2 := tc * tc
  let t3 := t2 * tc
  let mt := 1 - tc
  let mt2 := mt * mt
  let mt3 := mt2 * mt
  (mt3 * p0.1 + 3 * mt2 * tc * p1.1 + 3 * mt * t2 * p2.1 + t3 * p3.1,
   mt3 * p0.2 + 3 * mt2 * tc * p1.2 + 3 * mt * t2 * p2.2 + t3 * p3.2)

/-- `_cubic_bezier_tangent`: clamp `t` and evaluate the analytic first
derivative `3(1-t)²(P1-P0) + 6(1-t)t(P2-P1) + 3t²(P3-P2)`. -/
noncomputable def cubic_bezier_tangent (p0 p1 p2 p3 : ℝ × ℝ) (t : ℝ) : ℝ × ℝ :=
  let tc := max 0 (min 1 t)
  let mt := 1 - tc
  let mt2 := mt * mt
  let t2 := tc * tc
  (3 * mt2 * (p1.1 - p0.1) + 6 * mt * tc * (p2.1 - p1.1) + 3 * t2 * (p3.1 - p2.1),
   3 * mt2 * (p1.2 - p0.2) + 6 * mt * tc * (p2.2 - p1.2) + 3 * t2 * (p3.2 - p2.2))

/-- Second derivative `6(1-t)(P2-2P1+P0) + 6t(P3-2P2+P1)` as computed
inline in `_cubic_bezier_curvature` (note: the source does not clamp `t`
here; only the tangent call clamps internally). -/
noncomputable def bezier_second_derivative (p0 p1 p2 p3 : ℝ × ℝ) (t : ℝ) : ℝ × ℝ :=
  let mt := 1 - t
  (6 * mt * (p2.1 - 2 * p1.1 + p0.1) + 6 * t * (p3.1 - 2 * p2.1 + p1.1),
   6 * mt * (p2.2 - 2 * p1.2 + p0.2) + 6 * t * (p3.2 - 2 * p2.2 + p1.2))

/-- `velocity_squared = dx*dx + dy*dy` of `_cubic_bezier_curvature`. -/
noncomputable def velocity_squared (p0 p1 p2 p3 : ℝ × ℝ) (t : ℝ) : ℝ :=
  let d := cubic_bezier_tangent p0 p1 p2 p3 t
  d.1 * d.1 + d.2 * d.2

/-- `cross_product = dx * ddy - dy * ddx` of `_cubic_bezier_curvature`. -/
noncomputable def cross_product_term (p0 p1 p2 p3 : ℝ × ℝ) (t : ℝ) : ℝ :=
  let d := cubic_bezier_tangent p0 p1 p2 p3 t
  let dd := bezier_second_derivative p0 p1 p2 p3 t
  d.1 * dd.2 - d.2 * dd.1

/-- The unclamped curvature `cross_product / velocity_squared ** 1.5`
(Python float `**` on the nonnegative base is `Real.rpow`). -/
noncomputable def raw_curvature (p0 p1 p2 p3 : ℝ × ℝ) (t : ℝ) : ℝ :=
  cross_product_term p0 p1 p2 p3 t / velocity_squared p0 p1 p2 p3 t ^ (1.5 : ℝ)

/-- `_cubic_bezier_curvature`: return 0 when `velocity_squared < 1e-10`,
otherwise the raw curvature saturated to `±1.0` when its magnitude
exceeds `max_curvature = 1.0` (sign preserved). -/
noncomputable def cubic_bezier_curvature (p0 p1 p2 p3 : ℝ × ℝ) (t : ℝ) : ℝ :=
  if velocity_squared p0 p1 p2 p3 t < 1e-10 then 0
  else if 1 < |raw_curvature p0 p1 p2 p3 t| then
    (if 0 < raw_curvature p0 p1 p2 p3 t then 1 else -1)
  else raw_curvature p0 p1 p2 p3 t

/-- A sampler output record: the tuple
`(point, perp, -curvature, abs(curvature))` appended by
`_sample_cubic_curve`. -/
structure Sample where
  point : ℝ × ℝ
  perp : ℝ × ℝ
  signed : ℝ
  absv : ℝ

/-- The sampling parameter `t = i / (N - 1) if N > 1 else 0`. -/
noncomputable def tParam (N i : ℕ) : ℝ :=
  if 1 < N then (i : ℝ) / ((N : ℝ) - 1) else 0

/-- One iteration of `_sample_cubic_curve`'s loop at index `i`: skip when
the tangent is the zero vector or its length `math.sqrt(tx**2 + ty**2)` is
below `1e-10`, otherwise emit the sample with the normalized, 90°-rotated
perpendicular `(-ty/L, tx/L)`, negated signed curvature and its absolute
value.  The source's final `math.isfinite(point)` guard is identically
true over `ℝ` and its per-iteration `except` handler is unreachable. -/
noncomputable def sampleAt (N : ℕ) (p0 p1 p2 p3 : ℝ × ℝ) (i : ℕ) : Option Sample :=
  let t := tParam N i
  let point := cubic_bezier_point p0 p1 p2 p3 t
  let curv := cubic_bezier_curvature p0 p1 p2 p3 t
  let tan := cubic_bezier_tangent p0 p1 p2 p3 t
  if tan = (0, 0) then Option.none
  else
    let tangent_length := Real.sqrt (tan.1 ^ 2 + tan.2 ^ 2)
    if tangent_length < 1e-10 then Option.none
    else
      some { point := point,
             perp := (-(tan.2 / tangent_length), tan.1 / tangent_length),
             signed := -curv,
             absv := |curv| }

/-- The `samples` list built by `_sample_cubic_curve`'s
`for i in range(N)` loop. -/
noncomputable def sample_list (N : ℕ) (p0 p1 p2 p3 : ℝ × ℝ) : List Sample :=
  (List.range N).filterMap (sampleAt N p0 p1 p2 p3)

/-- `_sample_cubic_curve`: the curve-data dictionary (its one field, the
sample list) when at least 2 samples survive, otherwise `None`. -/
noncomputable def sample_cubic_curve (N : ℕ) (p0 p1 p2 p3 : ℝ × ℝ) : Option (List Sample) :=
  let s := sample_list N p0 p1 p2 p3
  if 2 ≤ s.length then some s else Option.none

/-- Python `int(x)`: truncation toward zero. -/
noncomputable def pyInt (x : ℝ) : ℤ :=
  if 0 ≤ x then ⌊x⌋ else ⌈x⌉

/-- An RGBA fill color; the source renders it as the CSS string
`rgba(r, g, b, OPACITY)`, which we keep as its four components. -/
structure Color where
  r : ℤ
  g : ℤ
  b : ℤ
  a : ℝ

/-- `_get_curvature_color`: normalize `curvature` on `[min_curv, max_curv]`
(0 on a degenerate range), clamp to `[0, 1]`, raise to the `exponent`
parameter (`pow` is `Real.rpow`), then blend gray→yellow over `[0, 0.5)`
and yellow→red over `[0.5, 1]`. -/
noncomputable def get_curvature_color (curvature min_curv max_curv exponent : ℝ) : Color :=
  let t0 := if max_curv - min_curv < 1e-10 then 0 else (curvature - min_curv) / (max_curv - min_curv)
  let t1 := max 0 (min 1 t0)
  let t := t1 ^ exponent
  if t < 0.5 then
    let blend := t * 2
    { r := pyInt (128 + (255 - 128) * blend),
      g := pyInt (128 + (255 - 128) * blend),
      b := pyInt (128 - 128 * blend),
      a := OPACITY }
  else
    let blend := (t - 0.5) * 2
    { r := 255, g := pyInt (255 - 255 * blend), b := 0, a := OPACITY }

/-- Tooth length of one endpoint:
`(signed / abs if abs > 0 else 0) * abs * SCALE_FACTOR`
(lines 395-396 of the source). -/
noncomputable def tooth_length (signed absv scale : ℝ) : ℝ :=
  (if 0 < absv then signed / absv else 0) * absv * scale

/-- One comb tooth: the quadrilateral filled by `_draw_curve_data` in the
order `moveTo(point_i)`, `lineTo(point_next)`, `lineTo(tooth_end_next)`,
`lineTo(tooth_end_i)`, plus its fill color. -/
structure Tooth where
  pi : ℝ × ℝ
  pNext : ℝ × ℝ
  endNext : ℝ × ℝ
  endI : ℝ × ℝ
  color : Color

/-- Body of `_draw_curve_data`'s loop for the adjacent pair `(s, s')`:
compute the averaged curvature for the color, the (unused) normalized
pair `t_i`, `t_next`, the per-endpoint tooth lengths, skip the tooth when
either length's magnitude exceeds 10000, else emit the quadrilateral. -/
noncomputable def tooth_of_pair (scale exponent min_curvature max_curvature : ℝ)
    (s s' : Sample) : Option Tooth :=
  let avg_curvature := (s.absv + s'.absv) / 2
  -- t_i / t_next are computed and clamped by the source but never read
  -- afterwards (the tooth length uses the raw curvature); kept as dead lets.
  let _t_i := max 0 (min 1 (if max_curvature - min_curvature < 1e-10 then 0
    else (s.absv - min_curvature) / (max_curvature - min_curvature)))
  let _t_next := max 0 (min 1 (if max_curvature - min_curvature < 1e-10 then 0
    else (s'.absv - min_curvature) / (max_curvature - min_curvature)))
  let tl := tooth_length s.signed s.absv scale
  let tl' := tooth_length s'.signed s'.absv scale
  if 10000 < |tl| ∨ 10000 < |tl'| then Option.none
  else
    some { pi := s.point,
           pNext := s'.point,
           endNext := (s'.point.1 + s'.perp.1 * tl', s'.point.2 + s'.perp.2 * tl'),
           endI := (s.point.1 + s.perp.1 * tl, s.point.2 + s.perp.2 * tl),
           color := get_curvature_color avg_curvature min_curvature max_curvature exponent }

/-- `_draw_curve_data`: one tooth attempt per adjacent sample pair
(`for i in range(len(samples) - 1)`), in order; a skipped tooth emits
nothing.  The per-pair `except` handler is unreachable over `ℝ`. -/
noncomputable def draw_curve_data (scale exponent min_curvature max_curvature : ℝ)
    (samples : List Sample) : List Tooth :=
  (samples.zip samples.tail).filterMap
    (fun p => tooth_of_pair scale exponent min_curvature max_curvature p.1 p.2)

/-- Cast an extracted rational segment to real control points — the
`float(...)` values the sampler receives. -/
noncomputable def segR (s : SegQ) : (ℝ × ℝ) × (ℝ × ℝ) × (ℝ × ℝ) × (ℝ × ℝ) :=
  (((s.p0.1 : ℝ), (s.p0.2 : ℝ)), ((s.p1.1 : ℝ), (s.p1.2 : ℝ)),
   ((s.p2.1 : ℝ), (s.p2.2 : ℝ)), ((s.p3.1 : ℝ), (s.p3.2 : ℝ)))

/-- `_collect_curve_data`: resolve the node container
(`shape.get('nodes', [])`, falling back to `shape['Path'].get('nodes', [])`
when falsy and `'Path' in shape`), give up on fewer than 2 nodes, then
scan for cubic runs and sample each matched segment, keeping the
curve-data of those with at least 2 samples.  Every operation before the
loop can raise (duck typing); inside the loop all failures are caught and
advance the scan. -/
noncomputable def collect_curve_data (N : ℕ) (shape : PyVal) :
    Except PyErr (List (List Sample)) := do
  let nodes0 ← pyGet shape "nodes" (PyVal.list [])
  let nodes ←
    if pyTruthy nodes0 then pure nodes0
    else do
      let hasPath ← pyIn "Path" shape
      if hasPath then do
        let pathVal ← pySubscript shape "Path"
        pyGet pathVal "nodes" (PyVal.list [])
      else pure nodes0
  if pyTruthy nodes then do
    let len ← pyLen nodes
    if len < 2 then pure []
    else
      pure ((scanFrom nodes len 0).filterMap (fun q =>
        let p := segR q
        sample_cubic_curve N p.1 p.2.1 p.2.2.1 p.2.2.2))
  else pure []

/-- Python `min` of a nonempty float list (left fold of binary `min`). -/
noncomputable def pyListMin : List ℝ → ℝ
  | [] => 0
  | x :: xs => xs.foldl min x

/-- Python `max` of a nonempty float list (left fold of binary `max`). -/
noncomputable def pyListMax : List ℝ → ℝ
  | [] => 0
  | x :: xs => xs.foldl max x

/-- The body of `draw_below`'s shape loop for one shape: nothing unless
`'Path' in shape`; otherwise collect the path's curve data, aggregate the
path's own min/max absolute curvature, and render every curve of the path
against that range.  A path with no curve data or no samples contributes
nothing. -/
noncomputable def per_shape (scaleParam exponent : ℝ) (N : ℕ) (shape : PyVal) :
    Except PyErr (List Tooth) := do
  let hasPath ← pyIn "Path" shape
  if hasPath then do
    let curve_data_list ← collect_curve_data N shape
    if curve_data_list.isEmpty then pure []
    else
      let path_curvatures := curve_data_list.flatMap (fun cd => cd.map (fun s => s.absv))
      if path_curvatures.isEmpty then pure []
      else
        let min_curvature := pyListMin path_curvatures
        let max_curvature := pyListMax path_curvatures
        pure (curve_data_list.flatMap
          (draw_curve_data (SCALE_FACTOR scaleParam) exponent min_curvature max_curvature))
  else pure []

/-- The `for i, shape in enumerate(shapes)` loop: teeth of each shape in
order, stopping at the first propagating exception. -/
noncomputable def per_shape_all (scaleParam exponent : ℝ) (N : ℕ) :
    List PyVal → Except PyErr (List (List Tooth))
  | [] => pure []
  | sh :: rest => do
    let t ← per_shape scaleParam exponent N sh
    let ts ← per_shape_all scaleParam exponent N rest
    pure (t :: ts)

/-- `draw_below`: guard falsy `layer_data`, fetch and guard `shapes`, then
process each shape independently.  The result collects, per shape, the
teeth the source fills on the canvas context (the `ctx.save`/`ctx.restore`
bracket touches only the external drawing surface). -/
noncomputable def draw_below (scaleParam exponent : ℝ) (N : ℕ) (layer_data : PyVal) :
    Except PyErr (List (List Tooth)) := do
  if pyTruthy layer_data then do
    let shapes ← pyGet layer_data "shapes" (PyVal.list [])
    if pyTruthy shapes then do
      let shapeList ← pyIter shapes
      per_shape_all scaleParam exponent N shapeList
    else pure []
  else pure []

/-! ### Helper lemmas -/

/-- Clamping `t = 0` is the identity. -/
lemma clamp_zero : max (0 : ℝ) (min 1 0) = 0 := by
  rw [min_eq_right (by norm_num : (0:ℝ) ≤ 1), max_self]

/-- Clamping `t = 1` is the identity. -/
lemma clamp_one : max (0 : ℝ) (min 1 1) = 1 := by
  rw [min_self, max_eq_right (by norm_num : (0:ℝ) ≤ 1)]

/-- Python `x ** 1.5` on a nonnegative float is `√x ³`. -/
lemma rpow_three_halves (x : ℝ) (hx : 0 ≤ x) :
    x ^ (1.5 : ℝ) = Real.sqrt x ^ 3 := by
  rw [show (1.5 : ℝ) = (1/2 : ℝ) * ((3 : ℕ) : ℝ) by norm_num, Real.rpow_mul hx,
    Real.rpow_natCast, Real.sqrt_eq_rpow]

/-! ### Claim C5 -/

/-- Claim C5: for every control-point quadruple, the position function at
`t = 0` returns exactly `P0` and at `t = 1` returns exactly `P3`. -/
theorem position_endpoint_interpolation (p0 p1 p2 p3 : ℝ × ℝ) :
    cubic_bezier_point p0 p1 p2 p3 0 = p0 ∧ cubic_bezier_point p0 p1 p2 p3 1 = p3 := by
  constructor
  · simp only [cubic_bezier_point, clamp_zero]
    norm_num
  · simp only [cubic_bezier_point, clamp_one]
    norm_num

/-! ### Claim C1 -/

/-- Claim C1: the signed curvature always lies in `[-1, 1]`; when the
squared tangent magnitude is below `1e-10` it is exactly `0` (no
division); and whenever the unclamped value's magnitude exceeds `1` the
result is saturated to `+1`/`-1` preserving its sign. -/
theorem curvature_bounded_and_saturated (p0 p1 p2 p3 : ℝ × ℝ) (t : ℝ) :
    (-1 ≤ cubic_bezier_curvature p0 p1 p2 p3 t ∧ cubic_bezier_curvature p0 p1 p2 p3 t ≤ 1)
    ∧ (velocity_squared p0 p1 p2 p3 t < 1e-10 → cubic_bezier_curvature p0 p1 p2 p3 t = 0)
    ∧ (1e-10 ≤ velocity_squared p0 p1 p2 p3 t → 1 < |raw_curvature p0 p1 p2 p3 t| →
        cubic_bezier_curvature p0 p1 p2 p3 t
          = if 0 < raw_curvature p0 p1 p2 p3 t then 1 else -1) := by
  refine ⟨?_, ?_, ?_⟩
  · unfold cubic_bezier_curvature
    split_ifs with h1 h2 h3
    · norm_num
    · norm_num
    · norm_num
    · have h := abs_le.mp (le_of_not_lt h2)
      exact ⟨h.1, h.2⟩
  · intro h
    unfold cubic_bezier_curvature
    rw [if_pos h]
  · intro hv hc
    unfold cubic_bezier_curvature
    rw [if_neg (not_lt.mpr hv), if_pos hc]

/-- Witness for C1: a stationary quadruple hits the `< 1e-10` branch and
returns 0; a tight left turn has unclamped curvature `20/3 > 1` and is
saturated to `+1`. -/
theorem curvature_bounded_and_saturated_witness :
    cubic_bezier_curvature ((0:ℝ), (0:ℝ)) (0, 0) (0, 0) (0, 0) 0 = 0
    ∧ cubic_bezier_curvature ((0:ℝ), (0:ℝ)) (1/10, 0) (1/10, 1/10) (0, 1/10) 0 = 1 := by
  constructor
  · refine (curvature_bounded_and_saturated _ _ _ _ 0).2.1 ?_
    simp only [velocity_squared, cubic_bezier_tangent, clamp_zero]
    norm_num
  · have htan : cubic_bezier_tangent ((0:ℝ), (0:ℝ)) (1/10, 0) (1/10, 1/10) (0, 1/10) 0
        = (3/10, 0) := by
      simp only [cubic_bezier_tangent, clamp_zero]
      norm_num
    have hdd : bezier_second_derivative ((0:ℝ), (0:ℝ)) (1/10, 0) (1/10, 1/10) (0, 1/10) 0
        = (-3/5, 3/5) := by
      simp only [bezier_second_derivative]
      norm_num
    have hv9 : velocity_squared ((0:ℝ), (0:ℝ)) (1/10, 0) (1/10, 1/10) (0, 1/10) 0 = 9/100 := by
      simp only [velocity_squared]
      rw [htan]
      norm_num
    have hcross : cross_product_term ((0:ℝ), (0:ℝ)) (1/10, 0) (1/10, 1/10) (0, 1/10) 0
        = 9/50 := by
      simp only [cross_product_term]
      rw [htan, hdd]
      norm_num
    have hrp : (9/100 : ℝ) ^ (1.5 : ℝ) = 27/1000 := by
      rw [rpow_three_halves _ (by norm_num), show (9/100 : ℝ) = (3/10) ^ 2 by norm_num,
        Real.sqrt_sq (by norm_num : (0:ℝ) ≤ 3/10)]
      norm_num
    have hval : raw_curvature ((0:ℝ), (0:ℝ)) (1/10, 0) (1/10, 1/10) (0, 1/10) 0 = 20/3 := by
      simp only [raw_curvature]
      rw [hcross, hv9, hrp]
      norm_num
    have hv : (1e-10 : ℝ) ≤ velocity_squared ((0:ℝ), (0:ℝ)) (1/10, 0) (1/10, 1/10) (0, 1/10) 0 := by
      rw [hv9]
      norm_num
    have hc : 1 < |raw_curvature ((0:ℝ), (0:ℝ)) (1/10, 0) (1/10, 1/10) (0, 1/10) 0| := by
      rw [hval, abs_of_pos (by norm_num)]
      norm_num
    have h := (curvature_bounded_and_saturated ((0:ℝ), (0:ℝ)) (1/10, 0) (1/10, 1/10) (0, 1/10) 0).2.2 hv hc
    rw [h, if_pos (by rw [hval]; norm_num)]

/-- The sampler's `tangent_length = math.sqrt(tangent[0]**2 + tangent[1]**2)`
as a function of the parameter. -/
noncomputable def tangent_length (p0 p1 p2 p3 : ℝ × ℝ) (t : ℝ) : ℝ :=
  Real.sqrt ((cubic_bezier_tangent p0 p1 p2 p3 t).1 ^ 2
    + (cubic_bezier_tangent p0 p1 p2 p3 t).2 ^ 2)

/-- A `filterMap` keeps exactly the entries the function does not send to
`none`. -/
lemma length_filterMap_add_countP {α β : Type} (f : α → Option β) (l : List α) :
    (l.filterMap f).length + l.countP (fun a => (f a).isNone) = l.length := by
  induction l with
  | nil => simp
  | cons a l ih =>
    cases h : f a with
    | none =>
      simp [List.filterMap_cons, h, List.countP_cons]
      omega
    | some b =>
      simp [List.filterMap_cons, h, List.countP_cons]
      omega

/-- The sampler skips index `i` exactly when the tangent length at its
parameter is below `1e-10` (a zero tangent vector has length `0`, so the
source's first `continue` is subsumed). -/
lemma sampleAt_eq_none_iff (N : ℕ) (p0 p1 p2 p3 : ℝ × ℝ) (i : ℕ) :
    sampleAt N p0 p1 p2 p3 i = Option.none ↔
      tangent_length p0 p1 p2 p3 (tParam N i) < 1e-10 := by
  simp only [sampleAt, tangent_length]
  split_ifs with h1 h2
  · refine iff_of_true rfl ?_
    rw [h1]
    norm_num
  · exact iff_of_true rfl h2
  · exact iff_of_false (by simp) h2

/-! ### Claim C7 -/

open Classical in
/-- Claim C7: over the `N` uniformly spaced parameters `t = i/(N-1)`,
every sample whose tangent magnitude is below `1e-10` is excluded, and the
emitted sequence has length `N` minus the number of such degenerate
indices. -/
theorem sample_count_excludes_degenerate (p0 p1 p2 p3 : ℝ × ℝ) (N : ℕ) :
    (sample_list N p0 p1 p2 p3).length
      = N - (List.range N).countP
          (fun i => decide (tangent_length p0 p1 p2 p3 (tParam N i) < 1e-10))
    ∧ ∀ i, i < N → tangent_length p0 p1 p2 p3 (tParam N i) < 1e-10 →
        sampleAt N p0 p1 p2 p3 i = Option.none := by
  constructor
  · have hlen := length_filterMap_add_countP (sampleAt N p0 p1 p2 p3) (List.range N)
    have hcong : (List.range N).countP (fun a => (sampleAt N p0 p1 p2 p3 a).isNone)
        = (List.range N).countP
            (fun i => decide (tangent_length p0 p1 p2 p3 (tParam N i) < 1e-10)) := by
      refine List.countP_congr ?_
      intro a _
      cases hsa : sampleAt N p0 p1 p2 p3 a with
      | none =>
        have hd := (sampleAt_eq_none_iff N p0 p1 p2 p3 a).mp hsa
        simp [hd]
      | some s =>
        have hd : ¬ tangent_length p0 p1 p2 p3 (tParam N a) < 1e-10 := by
          intro hh
          have h2 := (sampleAt_eq_none_iff N p0 p1 p2 p3 a).mpr hh
          rw [hsa] at h2
          exact Option.noConfusion h2
        simp [hd]
    rw [sample_list] at *
    rw [hcong] at hlen
    rw [List.length_range] at hlen
    omega
  · intro i _ hdeg
    exact (sampleAt_eq_none_iff N p0 p1 p2 p3 i).mpr hdeg

/-- Witness for C7: with a single sample (`N = 1`, so `t = 0`) of a fully
degenerate quadruple, the tangent magnitude is `0 < 1e-10` and the sample
is excluded. -/
theorem sample_count_excludes_degenerate_witness :
    sampleAt 1 ((0:ℝ), (0:ℝ)) (0, 0) (0, 0) (0, 0) 0 = Option.none := by
  refine (sample_count_excludes_degenerate ((0:ℝ), (0:ℝ)) (0, 0) (0, 0) (0, 0) 1).2 0
    (by norm_num) ?_
  simp only [tangent_length, cubic_bezier_tangent, tParam]
  norm_num

/-- Normalizing a nonzero tangent `(tx, ty)` and rotating it 90° gives a
unit, nonzero vector orthogonal to the tangent. -/
lemma perp_components (tx ty : ℝ) (hv : 0 < tx ^ 2 + ty ^ 2) :
    (-(ty / Real.sqrt (tx ^ 2 + ty ^ 2))) ^ 2 + (tx / Real.sqrt (tx ^ 2 + ty ^ 2)) ^ 2 = 1
    ∧ (-(ty / Real.sqrt (tx ^ 2 + ty ^ 2)), tx / Real.sqrt (tx ^ 2 + ty ^ 2)) ≠ ((0:ℝ), (0:ℝ))
    ∧ -(ty / Real.sqrt (tx ^ 2 + ty ^ 2)) * tx + tx / Real.sqrt (tx ^ 2 + ty ^ 2) * ty = 0 := by
  have hL2 : Real.sqrt (tx ^ 2 + ty ^ 2) ^ 2 = tx ^ 2 + ty ^ 2 := Real.sq_sqrt hv.le
  have hunit : (-(ty / Real.sqrt (tx ^ 2 + ty ^ 2))) ^ 2
      + (tx / Real.sqrt (tx ^ 2 + ty ^ 2)) ^ 2 = 1 := by
    rw [show (-(ty / Real.sqrt (tx ^ 2 + ty ^ 2))) ^ 2
          + (tx / Real.sqrt (tx ^ 2 + ty ^ 2)) ^ 2
        = (tx ^ 2 + ty ^ 2) / Real.sqrt (tx ^ 2 + ty ^ 2) ^ 2 by ring,
      hL2, div_self (ne_of_gt hv)]
  refine ⟨hunit, ?_, ?_⟩
  · intro heq
    have h1 := congrArg Prod.fst heq
    have h2 := congrArg Prod.snd heq
    simp only at h1 h2
    rw [h1, h2] at hunit
    norm_num at hunit
  · have hLne : Real.sqrt (tx ^ 2 + ty ^ 2) ≠ 0 := ne_of_gt (Real.sqrt_pos.mpr hv)
    field_simp
    ring

/-! ### Claim C9 -/

/-- Claim C9: every emitted sample's perpendicular is exactly unit-length,
never the zero vector, and is the 90°-rotation `(-ty/L, tx/L)` of the
normalized tangent at its parameter — in particular orthogonal to that
tangent. -/
theorem sample_perp_unit_orthogonal (N : ℕ) (p0 p1 p2 p3 : ℝ × ℝ) (s : Sample)
    (hs : s ∈ sample_list N p0 p1 p2 p3) :
    s.perp.1 ^ 2 + s.perp.2 ^ 2 = 1
    ∧ s.perp ≠ (0, 0)
    ∧ ∃ i, i < N
        ∧ s.perp.1 * (cubic_bezier_tangent p0 p1 p2 p3 (tParam N i)).1
            + s.perp.2 * (cubic_bezier_tangent p0 p1 p2 p3 (tParam N i)).2 = 0
        ∧ s.perp = (-((cubic_bezier_tangent p0 p1 p2 p3 (tParam N i)).2
              / tangent_length p0 p1 p2 p3 (tParam N i)),
            (cubic_bezier_tangent p0 p1 p2 p3 (tParam N i)).1
              / tangent_length p0 p1 p2 p3 (tParam N i)) := by
  obtain ⟨i, hmem, hfi⟩ := List.mem_filterMap.mp hs
  have hi : i < N := List.mem_range.mp hmem
  simp only [sampleAt] at hfi
  split_ifs at hfi with h1 h2
  case _ =>
    obtain rfl := (Option.some.injEq _ _).mp hfi
    have hv : 0 < (cubic_bezier_tangent p0 p1 p2 p3 (tParam N i)).1 ^ 2
        + (cubic_bezier_tangent p0 p1 p2 p3 (tParam N i)).2 ^ 2 := by
      have h3 : (0:ℝ) < 1e-10 := by norm_num
      exact Real.sqrt_pos.mp (lt_of_lt_of_le h3 (not_lt.mp h2))
    obtain ⟨hu, hnz, ho⟩ := perp_components
      (cubic_bezier_tangent p0 p1 p2 p3 (tParam N i)).1
      (cubic_bezier_tangent p0 p1 p2 p3 (tParam N i)).2 hv
    exact ⟨hu, hnz, i, hi, ho, rfl⟩

/-- Witness for C9: the first sample (`t = 0`) of the horizontal segment
`(0,0)-(1,0)-(2,0)-(3,0)` at `N = 2` has tangent `(3, 0)`, hence
perpendicular `(0, 1)` — unit-length and nonzero. -/
theorem sample_perp_unit_orthogonal_witness :
    (Sample.mk ((0:ℝ), (0:ℝ)) (0, 1) 0 0).perp.1 ^ 2
        + (Sample.mk ((0:ℝ), (0:ℝ)) (0, 1) 0 0).perp.2 ^ 2 = 1
    ∧ (Sample.mk ((0:ℝ), (0:ℝ)) (0, 1) 0 0).perp ≠ (0, 0) := by
  have htp : tParam 2 0 = 0 := by
    simp [tParam]
  have htan : cubic_bezier_tangent ((0:ℝ), (0:ℝ)) (1, 0) (2, 0) (3, 0) 0 = (3, 0) := by
    simp only [cubic_bezier_tangent, clamp_zero]
    norm_num
  have hpt : cubic_bezier_point ((0:ℝ), (0:ℝ)) (1, 0) (2, 0) (3, 0) 0 = (0, 0) := by
    simp only [cubic_bezier_point, clamp_zero]
    norm_num
  have hdd : bezier_second_derivative ((0:ℝ), (0:ℝ)) (1, 0) (2, 0) (3, 0) 0 = (0, 0) := by
    simp only [bezier_second_derivative]
    norm_num
  have hcurv : cubic_bezier_curvature ((0:ℝ), (0:ℝ)) (1, 0) (2, 0) (3, 0) 0 = 0 := by
    have hv : velocity_squared ((0:ℝ), (0:ℝ)) (1, 0) (2, 0) (3, 0) 0 = 9 := by
      simp only [velocity_squared]
      rw [htan]
      norm_num
    have hraw : raw_curvature ((0:ℝ), (0:ℝ)) (1, 0) (2, 0) (3, 0) 0 = 0 := by
      simp only [raw_curvature, cross_product_term]
      rw [htan, hdd]
      norm_num
    unfold cubic_bezier_curvature
    rw [hv, hraw]
    norm_num
  have hsq : Real.sqrt ((3:ℝ) ^ 2 + 0 ^ 2) = 3 := by
    rw [show (3:ℝ) ^ 2 + 0 ^ 2 = 3 ^ 2 by norm_num,
      Real.sqrt_sq (by norm_num : (0:ℝ) ≤ 3)]
  have hf0 : sampleAt 2 ((0:ℝ), (0:ℝ)) (1, 0) (2, 0) (3, 0) 0
      = some (Sample.mk ((0:ℝ), (0:ℝ)) (0, 1) 0 0) := by
    simp only [sampleAt, htp, htan, hpt, hcurv, hsq]
    norm_num [Prod.mk.injEq]
  have hmem : (Sample.mk ((0:ℝ), (0:ℝ)) (0, 1) 0 0)
      ∈ sample_list 2 ((0:ℝ), (0:ℝ)) (1, 0) (2, 0) (3, 0) := by
    unfold sample_list
    exact List.mem_filterMap.mpr ⟨0, List.mem_range.mpr (by norm_num), hf0⟩
  have h := sample_perp_unit_orthogonal 2 ((0:ℝ), (0:ℝ)) (1, 0) (2, 0) (3, 0) _ hmem
  exact ⟨h.1, h.2.1⟩

/-! ### Claim C10 -/

/-- Truncation of a nonnegative real is nonnegative. -/
lemma pyInt_nonneg {x : ℝ} (h : 0 ≤ x) : 0 ≤ pyInt x := by
  unfold pyInt
  rw [if_pos h]
  exact Int.floor_nonneg.mpr h

/-- Truncation respects an integer upper bound. -/
lemma pyInt_le {x : ℝ} {n : ℤ} (h : x ≤ (n : ℝ)) : pyInt x ≤ n := by
  unfold pyInt
  split_ifs
  · calc ⌊x⌋ ≤ ⌊(n : ℝ)⌋ := Int.floor_le_floor h
    _ = n := Int.floor_intCast n
  · exact Int.ceil_le.mpr h

/-- Truncation respects an integer lower bound. -/
lemma le_pyInt {x : ℝ} {n : ℤ} (h : (n : ℝ) ≤ x) : n ≤ pyInt x := by
  unfold pyInt
  split_ifs
  · exact Int.le_floor.mpr h
  · calc n = ⌈((n : ℝ))⌉ := (Int.ceil_intCast n).symm
    _ ≤ ⌈x⌉ := Int.ceil_le_ceil h

/-- Claim C10: for every curvature, range and exponent `≥ 0`, the gradient
color is a valid RGBA on the gray→yellow→red ramp: `128 ≤ r ≤ 255`,
`0 ≤ g ≤ 255`, `0 ≤ b ≤ 128`, alpha fixed at `0.4`. -/
theorem gradient_color_valid (curvature min_curv max_curv exponent : ℝ)
    (he : 0 ≤ exponent) :
    128 ≤ (get_curvature_color curvature min_curv max_curv exponent).r
    ∧ (get_curvature_color curvature min_curv max_curv exponent).r ≤ 255
    ∧ 0 ≤ (get_curvature_color curvature min_curv max_curv exponent).g
    ∧ (get_curvature_color curvature min_curv max_curv exponent).g ≤ 255
    ∧ 0 ≤ (get_curvature_color curvature min_curv max_curv exponent).b
    ∧ (get_curvature_color curvature min_curv max_curv exponent).b ≤ 128
    ∧ (get_curvature_color curvature min_curv max_curv exponent).a = 0.4 := by
  simp only [get_curvature_color]
  set t0 := if max_curv - min_curv < 1e-10 then 0
    else (curvature - min_curv) / (max_curv - min_curv) with ht0
  set t := (max 0 (min 1 t0)) ^ exponent with ht
  have hta : (0:ℝ) ≤ t := Real.rpow_nonneg (le_max_left _ _) _
  have htb : t ≤ 1 :=
    Real.rpow_le_one (le_max_left _ _) (max_le (by norm_num) (min_le_left _ _)) he
  split_ifs with h05
  · refine ⟨?_, ?_, ?_, ?_, ?_, ?_, rfl⟩
    · exact le_pyInt (by push_cast; nlinarith [hta])
    · exact pyInt_le (by push_cast; nlinarith [h05])
    · exact pyInt_nonneg (by nlinarith [hta])
    · exact pyInt_le (by push_cast; nlinarith [h05])
    · exact pyInt_nonneg (by nlinarith [h05])
    · exact pyInt_le (by push_cast; nlinarith [hta])
  · refine ⟨by norm_num, by norm_num, ?_, ?_, by norm_num, by norm_num, rfl⟩
    · exact pyInt_nonneg (by nlinarith [htb])
    · exact pyInt_le (by push_cast; nlinarith [not_lt.mp h05])

/-- Witness for C10: the default exponent `1` gives a valid color at the
degenerate range `min = max = 0`. -/
theorem gradient_color_valid_witness :
    128 ≤ (get_curvature_color 0 0 0 1).r
    ∧ (get_curvature_color 0 0 0 1).r ≤ 255
    ∧ 0 ≤ (get_curvature_color 0 0 0 1).g
    ∧ (get_curvature_color 0 0 0 1).g ≤ 255
    ∧ 0 ≤ (get_curvature_color 0 0 0 1).b
    ∧ (get_curvature_color 0 0 0 1).b ≤ 128
    ∧ (get_curvature_color 0 0 0 1).a = 0.4 :=
  gradient_color_valid 0 0 0 1 (by norm_num)

/-! ### Claims C6 and C8 -/

/-- The source's tooth-length expression
`(signed / abs if abs > 0 else 0) * abs * scale` equals
`sign(signed) * abs * scale` whenever `abs = |signed|` (the sampler always
stores the pair that way). -/
lemma tooth_length_sign (s sc : ℝ) {a : ℝ} (ha : a = |s|) :
    tooth_length s a sc = Real.sign s * a * sc := by
  subst ha
  unfold tooth_length
  rcases lt_trichotomy s 0 with h | h | h
  · rw [abs_of_neg h, Real.sign_of_neg h, if_pos (by linarith : (0:ℝ) < -s),
      div_neg, div_self (ne_of_lt h)]
  · subst h
    simp
  · rw [abs_of_pos h, Real.sign_of_pos h, if_pos h, div_self (ne_of_gt h)]

/-- Anatomy of an emitted tooth: its base points are the two sample
points, each end is offset by that endpoint's own tooth length along its
own perpendicular, both tooth lengths have magnitude at most 10000, and
the fill color is the gradient at the averaged curvature. -/
lemma tooth_of_pair_spec (scale exponent min_curv max_curv : ℝ) (s s' : Sample) (th : Tooth)
    (hsome : tooth_of_pair scale exponent min_curv max_curv s s' = some th) :
    th.endI.1 - th.pi.1 = s.perp.1 * tooth_length s.signed s.absv scale
    ∧ th.endI.2 - th.pi.2 = s.perp.2 * tooth_length s.signed s.absv scale
    ∧ th.endNext.1 - th.pNext.1 = s'.perp.1 * tooth_length s'.signed s'.absv scale
    ∧ th.endNext.2 - th.pNext.2 = s'.perp.2 * tooth_length s'.signed s'.absv scale
    ∧ |tooth_length s.signed s.absv scale| ≤ 10000
    ∧ |tooth_length s'.signed s'.absv scale| ≤ 10000
    ∧ th.color = get_curvature_color ((s.absv + s'.absv) / 2) min_curv max_curv exponent := by
  simp only [tooth_of_pair] at hsome
  split_ifs at hsome with hcond
  obtain rfl := (Option.some.injEq _ _).mp hsome
  push_neg at hcond
  refine ⟨?_, ?_, ?_, ?_, hcond.1, hcond.2, rfl⟩ <;> dsimp only <;> ring

/-- Claim C6: each endpoint's tooth length is
`sign(signed) · abs · SCALE` with `SCALE = 2000 + scaleParam·250`, a tooth
is dropped exactly when either endpoint's `|toothLength|` exceeds 10000,
and consequently no emitted tooth has an endpoint offset longer
than 10000. -/
theorem tooth_length_formula_and_cutoff (scaleParam exponent min_curv max_curv : ℝ)
    (samples : List Sample)
    (habs : ∀ s ∈ samples, s.absv = |s.signed|)
    (hperp : ∀ s ∈ samples, s.perp.1 ^ 2 + s.perp.2 ^ 2 = 1) :
    (∀ p ∈ samples.zip samples.tail,
        tooth_length p.1.signed p.1.absv (SCALE_FACTOR scaleParam)
          = Real.sign p.1.signed * p.1.absv * (2000 + scaleParam * 250)
        ∧ tooth_length p.2.signed p.2.absv (SCALE_FACTOR scaleParam)
          = Real.sign p.2.signed * p.2.absv * (2000 + scaleParam * 250)
        ∧ (tooth_of_pair (SCALE_FACTOR scaleParam) exponent min_curv max_curv p.1 p.2
              = Option.none
            ↔ 10000 < |tooth_length p.1.signed p.1.absv (SCALE_FACTOR scaleParam)|
              ∨ 10000 < |tooth_length p.2.signed p.2.absv (SCALE_FACTOR scaleParam)|))
    ∧ ∀ th ∈ draw_curve_data (SCALE_FACTOR scaleParam) exponent min_curv max_curv samples,
        (th.endI.1 - th.pi.1) ^ 2 + (th.endI.2 - th.pi.2) ^ 2 ≤ 10000 ^ 2
        ∧ (th.endNext.1 - th.pNext.1) ^ 2 + (th.endNext.2 - th.pNext.2) ^ 2 ≤ 10000 ^ 2 := by
  constructor
  · intro p hp
    have hm1 : p.1 ∈ samples := (List.of_mem_zip hp).1
    have hm2 : p.2 ∈ samples := List.mem_of_mem_tail (List.of_mem_zip hp).2
    refine ⟨?_, ?_, ?_⟩
    · rw [tooth_length_sign _ _ (habs p.1 hm1), SCALE_FACTOR]
    · rw [tooth_length_sign _ _ (habs p.2 hm2), SCALE_FACTOR]
    · simp only [tooth_of_pair]
      split_ifs with hcond
      · exact iff_of_true rfl hcond
      · exact iff_of_false (by simp) hcond
  · intro th hth
    obtain ⟨p, hpz, hsome⟩ := List.mem_filterMap.mp hth
    obtain ⟨h1, h2, h3, h4, hb1, hb2, -⟩ :=
      tooth_of_pair_spec (SCALE_FACTOR scaleParam) exponent min_curv max_curv p.1 p.2 th hsome
    have hu1 := hperp p.1 (List.of_mem_zip hpz).1
    have hu2 := hperp p.2 (List.mem_of_mem_tail (List.of_mem_zip hpz).2)
    have hab1 := abs_le.mp hb1
    have hab2 := abs_le.mp hb2
    constructor
    · have hr : (th.endI.1 - th.pi.1) ^ 2 + (th.endI.2 - th.pi.2) ^ 2
          = tooth_length p.1.signed p.1.absv (SCALE_FACTOR scaleParam) ^ 2
            * (p.1.perp.1 ^ 2 + p.1.perp.2 ^ 2) := by
        rw [h1, h2]
        ring
      rw [hr, hu1, mul_one]
      exact sq_le_sq' hab1.1 hab1.2
    · have hr : (th.endNext.1 - th.pNext.1) ^ 2 + (th.endNext.2 - th.pNext.2) ^ 2
          = tooth_length p.2.signed p.2.absv (SCALE_FACTOR scaleParam) ^ 2
            * (p.2.perp.1 ^ 2 + p.2.perp.2 ^ 2) := by
        rw [h3, h4]
        ring
      rw [hr, hu2, mul_one]
      exact sq_le_sq' hab2.1 hab2.2

/-- Witness for C6: a two-sample list with unit perpendicular `(1, 0)` and
zero curvature; the first pair's tooth length obeys the sign formula. -/
theorem tooth_length_formula_and_cutoff_witness :
    tooth_length 0 0 (SCALE_FACTOR 50) = Real.sign 0 * 0 * (2000 + 50 * 250) := by
  have h := (tooth_length_formula_and_cutoff 50 1 0 0
      [Sample.mk ((0:ℝ), (0:ℝ)) (1, 0) 0 0, Sample.mk ((0:ℝ), (1:ℝ)) (1, 0) 0 0]
      (by intro s hs; fin_cases hs <;> norm_num)
      (by intro s hs; fin_cases hs <;> norm_num)).1
    (Sample.mk ((0:ℝ), (0:ℝ)) (1, 0) 0 0, Sample.mk ((0:ℝ), (1:ℝ)) (1, 0) 0 0)
    (by simp [List.zip_cons_cons])
  exact h.1

/-- On a degenerate range (`max = min`) with exponent 1, the gradient
color is the gray `(128, 128, 128)` for every curvature input. -/
lemma get_curvature_color_gray (c m : ℝ) :
    get_curvature_color c m m 1 = ⟨128, 128, 128, OPACITY⟩ := by
  simp only [get_curvature_color]
  rw [if_pos (by norm_num : m - m < (1e-10 : ℝ)), clamp_zero, Real.rpow_one,
    if_pos (by norm_num : (0:ℝ) < 0.5)]
  have h128 : pyInt 128 = 128 := by
    unfold pyInt
    rw [if_pos (by norm_num : (0:ℝ) ≤ 128),
      show (128:ℝ) = ((128:ℤ) : ℝ) by norm_num, Int.floor_intCast]
  rw [show (128:ℝ) + (255 - 128) * (0 * 2) = 128 by norm_num,
    show (128:ℝ) - 128 * (0 * 2) = 128 by norm_num, h128]

/-- Counterexample to C8 as stated: with `scaleFactor = 50` the scale is
`2000 + 50·250 = 14500`, not `4000`. -/
theorem scale_factor_at_fifty : SCALE_FACTOR 50 = 14500 ∧ (14500 : ℝ) ≠ 4000 := by
  constructor
  · unfold SCALE_FACTOR
    norm_num
  · norm_num

/-- Claim C8 (amended: `scaleFactor = 50` gives `SCALE = 14500`): with
exponent 1, scaleFactor 50, and samples all carrying the same curvature
value, every generated tooth has the same length (both endpoint offsets
have squared length `(14500·κ)²`) and the same gray fill color, the
degenerate `min = max` range normalizing every sample to `t = 0`. -/
theorem uniform_curvature_equal_teeth (κ : ℝ) (samples : List Sample)
    (huni : ∀ s ∈ samples, s.signed = κ ∧ s.absv = |κ|)
    (hperp : ∀ s ∈ samples, s.perp.1 ^ 2 + s.perp.2 ^ 2 = 1) :
    ∀ th ∈ draw_curve_data (SCALE_FACTOR 50) 1 |κ| |κ| samples,
      th.color = ⟨128, 128, 128, OPACITY⟩
      ∧ (th.endI.1 - th.pi.1) ^ 2 + (th.endI.2 - th.pi.2) ^ 2 = (14500 * κ) ^ 2
      ∧ (th.endNext.1 - th.pNext.1) ^ 2 + (th.endNext.2 - th.pNext.2) ^ 2
          = (14500 * κ) ^ 2 := by
  intro th hth
  obtain ⟨p, hpz, hsome⟩ := List.mem_filterMap.mp hth
  obtain ⟨h1, h2, h3, h4, -, -, hcol⟩ :=
    tooth_of_pair_spec (SCALE_FACTOR 50) 1 |κ| |κ| p.1 p.2 th hsome
  have hm1 : p.1 ∈ samples := (List.of_mem_zip hpz).1
  have hm2 : p.2 ∈ samples := List.mem_of_mem_tail (List.of_mem_zip hpz).2
  obtain ⟨hs1, ha1⟩ := huni p.1 hm1
  obtain ⟨hs2, ha2⟩ := huni p.2 hm2
  have hsf : SCALE_FACTOR 50 = 14500 := by
    unfold SCALE_FACTOR
    norm_num
  have htl : ∀ s : Sample, s.signed = κ → s.absv = |κ| →
      tooth_length s.signed s.absv (SCALE_FACTOR 50) = 14500 * κ := by
    intro s hs ha
    rw [hs, ha, hsf]
    rcases eq_or_ne κ 0 with h | h
    · subst h
      simp [tooth_length]
    · unfold tooth_length
      rw [if_pos (abs_pos.mpr h), div_mul_cancel₀ _ (abs_ne_zero.mpr h)]
      ring
  refine ⟨?_, ?_, ?_⟩
  · rw [hcol, ha1, ha2, get_curvature_color_gray]
  · have hr : (th.endI.1 - th.pi.1) ^ 2 + (th.endI.2 - th.pi.2) ^ 2
        = tooth_length p.1.signed p.1.absv (SCALE_FACTOR 50) ^ 2
          * (p.1.perp.1 ^ 2 + p.1.perp.2 ^ 2) := by
      rw [h1, h2]
      ring
    rw [hr, hperp p.1 hm1, mul_one, htl p.1 hs1 ha1]
  · have hr : (th.endNext.1 - th.pNext.1) ^ 2 + (th.endNext.2 - th.pNext.2) ^ 2
        = tooth_length p.2.signed p.2.absv (SCALE_FACTOR 50) ^ 2
          * (p.2.perp.1 ^ 2 + p.2.perp.2 ^ 2) := by
      rw [h3, h4]
      ring
    rw [hr, hperp p.2 hm2, mul_one, htl p.2 hs2 ha2]

/-- Witness for C8's amended claim: a concrete two-sample uniform segment
(`κ = 0`) generates a tooth whose color is the gray `(128,128,128)` and
whose endpoint offsets have squared length `(14500·0)² = 0`. -/
theorem uniform_curvature_equal_teeth_witness :
    (Tooth.mk ((0:ℝ), (0:ℝ)) (1, 0) (1, 0) (0, 0) (get_curvature_color 0 0 0 1)).color
        = ⟨128, 128, 128, OPACITY⟩
    ∧ ((Tooth.mk ((0:ℝ), (0:ℝ)) (1, 0) (1, 0) (0, 0) (get_curvature_color 0 0 0 1)).endI.1
          - (Tooth.mk ((0:ℝ), (0:ℝ)) (1, 0) (1, 0) (0, 0) (get_curvature_color 0 0 0 1)).pi.1) ^ 2
        + ((Tooth.mk ((0:ℝ), (0:ℝ)) (1, 0) (1, 0) (0, 0) (get_curvature_color 0 0 0 1)).endI.2
          - (Tooth.mk ((0:ℝ), (0:ℝ)) (1, 0) (1, 0) (0, 0) (get_curvature_color 0 0 0 1)).pi.2) ^ 2
        = (14500 * 0) ^ 2 := by
  have hsome : tooth_of_pair (SCALE_FACTOR 50) 1 |(0:ℝ)| |(0:ℝ)|
      (Sample.mk ((0:ℝ), (0:ℝ)) (0, 1) 0 0) (Sample.mk ((1:ℝ), (0:ℝ)) (0, 1) 0 0)
      = some (Tooth.mk ((0:ℝ), (0:ℝ)) (1, 0) (1, 0) (0, 0) (get_curvature_color 0 0 0 1)) := by
    simp only [tooth_of_pair, tooth_length]
    norm_num
  have hmem : (Tooth.mk ((0:ℝ), (0:ℝ)) (1, 0) (1, 0) (0, 0) (get_curvature_color 0 0 0 1))
      ∈ draw_curve_data (SCALE_FACTOR 50) 1 |(0:ℝ)| |(0:ℝ)|
        [Sample.mk ((0:ℝ), (0:ℝ)) (0, 1) 0 0, Sample.mk ((1:ℝ), (0:ℝ)) (0, 1) 0 0] := by
    unfold draw_curve_data
    refine List.mem_filterMap.mpr
      ⟨(Sample.mk ((0:ℝ), (0:ℝ)) (0, 1) 0 0, Sample.mk ((1:ℝ), (0:ℝ)) (0, 1) 0 0), ?_, hsome⟩
    simp [List.zip_cons_cons]
  have h := uniform_curvature_equal_teeth 0
    [Sample.mk ((0:ℝ), (0:ℝ)) (0, 1) 0 0, Sample.mk ((1:ℝ), (0:ℝ)) (0, 1) 0 0]
    (by intro s hs; fin_cases hs <;> norm_num)
    (by intro s hs; fin_cases hs <;> norm_num)
    _ hmem
  exact ⟨h.1, h.2.1⟩

/-! ### Claim C4 -/

/-- One step of the extractor scan below the length bound: a match
records a segment and advances by 3, otherwise the scan advances by 1. -/
lemma scanFrom_step (nodes : PyVal) (len i : ℕ) (h : i < len) :
    scanFrom nodes len i = match matchAt nodes len i with
      | some s => s :: scanFrom nodes len (i + 3)
      | Option.none => scanFrom nodes len (i + 1) := by
  rw [scanFrom]
  simp only [dif_pos h]

/-- The scan stops as soon as the index reaches the node count. -/
lemma scanFrom_stop (nodes : PyVal) (len i : ℕ) (h : len ≤ i) :
    scanFrom nodes len i = [] := by
  rw [scanFrom]
  simp only [dif_neg (not_lt.mpr h)]

/-- Without an on/off/off/on type run at `i`, the extractor matches
nothing at `i`. -/
lemma matchAt_eq_none_of_not_typeRun (nodes : PyVal) (len i : ℕ)
    (h : typeRunAt nodes len i = false) : matchAt nodes len i = Option.none := by
  unfold matchAt
  rw [h]
  simp

/-- If no index below `len` starts a type run, the scan finds nothing
from any starting index. -/
lemma scanFrom_eq_nil_of_no_run (nodes : PyVal) (len : ℕ)
    (h : ∀ j, j < len → typeRunAt nodes len j = false) :
    ∀ i, scanFrom nodes len i = [] := by
  have key : ∀ k i, len - i ≤ k → scanFrom nodes len i = [] := by
    intro k
    induction k with
    | zero =>
      intro i hik
      exact scanFrom_stop nodes len i (by omega)
    | succ k ih =>
      intro i hik
      by_cases hi : i < len
      · rw [scanFrom_step nodes len i hi,
          matchAt_eq_none_of_not_typeRun nodes len i (h i hi)]
        exact ih (i + 1) (by omega)
      · exact scanFrom_stop nodes len i (not_lt.mp hi)
  intro i
  exact key (len - i) i le_rfl

/-- A well-formed node dictionary for the demonstration paths. -/
def demoNode (ty : String) (x y : ℚ) : PyVal :=
  .dict [("type", .str ty), ("x", .num x), ("y", .num y)]

/-- The closed 6-node path `[on, off, off, on, off, off]` of the claim:
two back-to-back cubic segments sharing endpoints via wraparound. -/
def demoClosedPath : List PyVal :=
  [demoNode "c" 0 0, demoNode "o" 1 0, demoNode "o" 2 0,
   demoNode "c" 3 0, demoNode "o" 4 0, demoNode "o" 5 0]

/-- Claim C4: the extractor yields exactly 2 segments on the 6-node
closed on/off/off/on/off/off path; on any node list where no index starts
an on-off-off-on run it yields 0 segments (and, being a total function of
the model, raises nothing); after a match the scan advances by 3,
otherwise by 1; and the scan never probes an index at or beyond the
length. -/
theorem segment_extractor_behavior :
    (collect_segments demoClosedPath).length = 2
    ∧ (∀ nodes : List PyVal,
        (∀ i, i < nodes.length → typeRunAt (.list nodes) nodes.length i = false) →
        collect_segments nodes = [])
    ∧ (∀ nodes len i, i < len →
        scanFrom nodes len i = match matchAt nodes len i with
          | some s => s :: scanFrom nodes len (i + 3)
          | Option.none => scanFrom nodes len (i + 1))
    ∧ (∀ nodes len i, len ≤ i → scanFrom nodes len i = []) := by
  refine ⟨?_, ?_, scanFrom_step, scanFrom_stop⟩
  · have hm0 : matchAt (.list demoClosedPath) 6 0
        = some ⟨(0, 0), (1, 0), (2, 0), (3, 0)⟩ := by decide
    have hm3 : matchAt (.list demoClosedPath) 6 3
        = some ⟨(3, 0), (4, 0), (5, 0), (0, 0)⟩ := by decide
    have hlen : demoClosedPath.length = 6 := rfl
    rw [collect_segments, hlen, if_neg (by norm_num),
      scanFrom_step _ 6 0 (by norm_num), hm0,
      scanFrom_step _ 6 3 (by norm_num), hm3,
      scanFrom_stop _ 6 6 le_rfl]
    rfl
  · intro nodes h
    by_cases hlen : nodes.length < 2
    · rw [collect_segments, if_pos hlen]
    · rw [collect_segments, if_neg hlen]
      exact scanFrom_eq_nil_of_no_run (.list nodes) nodes.length h 0

/-- Witness for C4: a 2-element list of bare numbers starts no run and
yields no segment, and the scan of an empty node value stops at once. -/
theorem segment_extractor_behavior_witness :
    collect_segments [PyVal.num 1, PyVal.num 2] = []
    ∧ scanFrom (PyVal.list []) 0 0 = []
    ∧ scanFrom (PyVal.list []) 1 0 = [] := by
  refine ⟨?_, ?_, ?_⟩
  · exact segment_extractor_behavior.2.1 [PyVal.num 1, PyVal.num 2] (by decide)
  · exact segment_extractor_behavior.2.2.2 (PyVal.list []) 0 0 le_rfl
  · have hstep := segment_extractor_behavior.2.2.1 (PyVal.list []) 1 0 (by norm_num)
    rw [hstep, show matchAt (PyVal.list []) 1 0 = Option.none from rfl]
    exact segment_extractor_behavior.2.2.2 (PyVal.list []) 1 1 le_rfl

/-! ### Claim C2 -/

/-- Sequencing after a success runs the continuation. -/
lemma exbind_ok {ε α β : Type} (a : α) (f : α → Except ε β) :
    (Except.ok a : Except ε α) >>= f = f a := rfl

/-- Sequencing after a raised error propagates the error. -/
lemma exbind_error {ε α β : Type} (e : ε) (f : α → Except ε β) :
    (Except.error e : Except ε α) >>= f = Except.error e := rfl

/-- A truthy node container must support `len(...)` (and indexing inside
the caught loop) for the scan to start without raising. -/
def wf_nodes_slot (nv : PyVal) : Bool := !pyTruthy nv || pySized nv

/-- The `shape['Path'].get('nodes', [])` fallback raises unless the
`Path` value is a dictionary whose `nodes` entry (if any, and truthy) is
sized. -/
def wf_path_entry (kvs : List (String × PyVal)) : Bool :=
  match dictGet kvs "Path" with
  | some (.dict pkvs) =>
    (match dictGet pkvs "nodes" with
     | some nv => wf_nodes_slot nv
     | Option.none => true)
  | some _ => false
  | Option.none => true

/-- Shapes the draw loop can process without raising: a dictionary with
sized node containers and a dictionary `Path` value, or a non-dictionary
that at least fails the `'Path' in shape` test (a container passing it
would be sent to `.get`, which only dictionaries have). -/
def wf_shape (v : PyVal) : Bool :=
  match v with
  | .dict kvs =>
    (match dictGet kvs "nodes" with
     | some nv => if pyTruthy nv then pySized nv else wf_path_entry kvs
     | Option.none => wf_path_entry kvs)
  | .list xs => !(xs.any (isStrVal "Path"))
  | .str s => !(strContains s "Path")
  | _ => false

/-- Layer data `draw_below` can process without raising: anything falsy,
or a dictionary whose `shapes` entry (when present and truthy) is an
iterable of well-formed shapes. -/
def wf_layer (v : PyVal) : Bool :=
  !pyTruthy v ||
  (match v with
   | .dict kvs =>
     (match dictGet kvs "shapes" with
      | some sv => !pyTruthy sv || (pySized sv && (pyIterCore sv).all wf_shape)
      | Option.none => true)
   | _ => false)

/-- Sequencing after `pure` runs the continuation. -/
lemma expure_bind {ε α β : Type} (a : α) (f : α → Except ε β) :
    (pure a : Except ε α) >>= f = f a := rfl

/-- The tail of `_collect_curve_data` (truthiness and length guards, then
the total scan-and-sample) returns normally whenever the resolved node
container is falsy or sized. -/
lemma collect_tail_ok (N : ℕ) (nodes : PyVal)
    (h : pyTruthy nodes = false ∨ pySized nodes = true) :
    ∃ r, (if pyTruthy nodes then do
        let len ← pyLen nodes
        if len < 2 then pure []
        else pure ((scanFrom nodes len 0).filterMap (fun q =>
          let p := segR q
          sample_cubic_curve N p.1 p.2.1 p.2.2.1 p.2.2.2))
      else pure ([] : List (List Sample))) = .ok r := by
  by_cases ht : pyTruthy nodes
  · have hs : pySized nodes = true := by
      rcases h with hf | hs
      · rw [ht] at hf
        exact absurd hf (by simp)
      · exact hs
    rw [if_pos ht, show pyLen nodes = .ok (pyLenCore nodes) from by
      unfold pyLen
      rw [if_pos hs], exbind_ok]
    split_ifs <;> exact ⟨_, rfl⟩
  · rw [if_neg ht]
    exact ⟨_, rfl⟩

/-- When the `Path` entry exists and the shape is well formed, the
`shape['Path']` subscript yields a dictionary whose resolved node
container is falsy or sized. -/
lemma path_get_ok (kvs : List (String × PyVal))
    (hw : wf_path_entry kvs = true) (hp : (dictGet kvs "Path").isSome = true) :
    ∃ pkvs, pySubscript (.dict kvs) "Path" = .ok (.dict pkvs)
      ∧ (pyTruthy ((dictGet pkvs "nodes").getD (.list [])) = false
         ∨ pySized ((dictGet pkvs "nodes").getD (.list [])) = true) := by
  cases hpv : dictGet kvs "Path" with
  | none =>
    rw [hpv] at hp
    simp at hp
  | some pv =>
    cases pv with
    | dict pkvs =>
      simp only [wf_path_entry, hpv] at hw
      refine ⟨pkvs, by simp only [pySubscript, hpv], ?_⟩
      cases hn2 : dictGet pkvs "nodes" with
      | none =>
        left
        simp [pyTruthy]
      | some nv2 =>
        simp only [hn2, wf_nodes_slot] at hw
        simp only [Option.getD_some]
        by_cases ht2 : pyTruthy nv2
        · right
          rw [ht2] at hw
          simpa using hw
        · left
          simpa using ht2
    | list xs => simp [wf_path_entry, hpv] at hw
    | num q => simp [wf_path_entry, hpv] at hw
    | str s => simp [wf_path_entry, hpv] at hw
    | pyNone => simp [wf_path_entry, hpv] at hw

/-- On a well-formed dictionary shape, `_collect_curve_data` returns
normally (the scan itself and the sampling are total). -/
lemma collect_ok_of_wf (N : ℕ) (kvs : List (String × PyVal))
    (hw : wf_shape (.dict kvs) = true) :
    ∃ r, collect_curve_data N (.dict kvs) = .ok r := by
  have hw' : (match dictGet kvs "nodes" with
      | some nv => if pyTruthy nv then pySized nv else wf_path_entry kvs
      | Option.none => wf_path_entry kvs) = true := by
    simpa only [wf_shape] using hw
  unfold collect_curve_data
  rw [show pyGet (.dict kvs) "nodes" (.list [])
      = .ok ((dictGet kvs "nodes").getD (.list [])) from rfl, exbind_ok]
  cases hn : dictGet kvs "nodes" with
  | some nv =>
    simp only [hn] at hw'
    simp only [Option.getD_some]
    by_cases ht : pyTruthy nv
    · rw [if_pos ht] at hw'
      rw [if_pos ht, expure_bind]
      exact collect_tail_ok N nv (Or.inr hw')
    · rw [if_neg ht] at hw'
      have hte : pyTruthy nv = false := by simpa using ht
      rw [if_neg ht,
        show pyIn "Path" (.dict kvs) = .ok (dictGet kvs "Path").isSome from rfl, exbind_ok]
      by_cases hp : (dictGet kvs "Path").isSome = true
      · obtain ⟨pkvs, hsub, hdisj⟩ := path_get_ok kvs hw' hp
        rw [if_pos hp, hsub, exbind_ok,
          show pyGet (.dict pkvs) "nodes" (.list [])
            = .ok ((dictGet pkvs "nodes").getD (.list [])) from rfl, exbind_ok]
        exact collect_tail_ok N _ hdisj
      · rw [if_neg hp, expure_bind]
        exact collect_tail_ok N nv (Or.inl hte)
  | none =>
    simp only [hn] at hw'
    simp only [Option.getD_none]
    have hte : pyTruthy (PyVal.list []) = false := by simp [pyTruthy]
    rw [if_neg (by simp [hte] : ¬ pyTruthy (PyVal.list []) = true),
      show pyIn "Path" (.dict kvs) = .ok (dictGet kvs "Path").isSome from rfl, exbind_ok]
    by_cases hp : (dictGet kvs "Path").isSome = true
    · obtain ⟨pkvs, hsub, hdisj⟩ := path_get_ok kvs hw' hp
      rw [if_pos hp, hsub, exbind_ok,
        show pyGet (.dict pkvs) "nodes" (.list [])
          = .ok ((dictGet pkvs "nodes").getD (.list [])) from rfl, exbind_ok]
      exact collect_tail_ok N _ hdisj
    · rw [if_neg hp, expure_bind]
      exact collect_tail_ok N (PyVal.list []) (Or.inl hte)
/-- An `if` whose branches both return normally returns normally. -/
lemma ite_ok {α : Type} (c : Prop) [Decidable c] (x y : Except PyErr α)
    (hx : ∃ r, x = .ok r) (hy : ∃ r, y = .ok r) :
    ∃ r, (if c then x else y) = .ok r := by
  split_ifs
  exacts [hx, hy]

/-- On a well-formed shape, the per-shape body of `draw_below` returns
normally. -/
lemma per_shape_ok (scaleParam exponent : ℝ) (N : ℕ) (v : PyVal)
    (hw : wf_shape v = true) :
    ∃ r, per_shape scaleParam exponent N v = .ok r := by
  unfold per_shape
  cases v with
  | dict kvs =>
    rw [show pyIn "Path" (.dict kvs) = .ok (dictGet kvs "Path").isSome from rfl, exbind_ok]
    by_cases hp : (dictGet kvs "Path").isSome = true
    · rw [if_pos hp]
      obtain ⟨r, hr⟩ := collect_ok_of_wf N kvs hw
      rw [hr, exbind_ok]
      exact ite_ok _ _ _ ⟨_, rfl⟩ (ite_ok _ _ _ ⟨_, rfl⟩ ⟨_, rfl⟩)
    · rw [if_neg hp]
      exact ⟨_, rfl⟩
  | list xs =>
    have hfalse : xs.any (isStrVal "Path") = false := by
      simpa [wf_shape] using hw
    rw [show pyIn "Path" (.list xs) = .ok (xs.any (isStrVal "Path")) from rfl, exbind_ok,
      hfalse, if_neg (by simp)]
    exact ⟨_, rfl⟩
  | str s =>
    have hfalse : strContains s "Path" = false := by
      simpa [wf_shape] using hw
    rw [show pyIn "Path" (.str s) = .ok (strContains s "Path") from rfl, exbind_ok,
      hfalse, if_neg (by simp)]
    exact ⟨_, rfl⟩
  | num q => simp [wf_shape] at hw
  | pyNone => simp [wf_shape] at hw

/-- The shape loop returns normally on a list of well-formed shapes. -/
lemma per_shape_all_ok (scaleParam exponent : ℝ) (N : ℕ) (l : List PyVal)
    (hw : l.all wf_shape = true) :
    ∃ r, per_shape_all scaleParam exponent N l = .ok r := by
  induction l with
  | nil => exact ⟨[], rfl⟩
  | cons x xs ih =>
    simp only [List.all_cons, Bool.and_eq_true] at hw
    obtain ⟨r1, h1⟩ := per_shape_ok scaleParam exponent N x hw.1
    obtain ⟨r2, h2⟩ := ih hw.2
    refine ⟨r1 :: r2, ?_⟩
    show (per_shape scaleParam exponent N x >>= fun t =>
      per_shape_all scaleParam exponent N xs >>= fun ts => pure (t :: ts)) = _
    rw [h1, exbind_ok, h2, exbind_ok]
    rfl

/-- A `layer_data` value exhibiting the C2 failure: its single shape
contains `'Path'` but no truthy `'nodes'`, and its `Path` value is the
number 5, so `shape['Path'].get('nodes', [])` raises `AttributeError`. -/
def badLayer : PyVal := .dict [("shapes", .list [.dict [("Path", .num 5)]])]

/-- Counterexample to C2 as stated: `draw_below` propagates an
`AttributeError` to the caller on `badLayer` — a malformed shape is not
always absorbed. -/
theorem draw_below_raises_on_malformed_shape :
    draw_below 50 1 50 badLayer = .error .attributeError := rfl

/-- Claim C2 (amended: shape containers must be well formed; node lists
may still hold arbitrary junk): on every layer value satisfying
`wf_layer` — falsy, or a dict whose truthy `shapes` entry is an iterable
of shapes that are dicts with sized node containers and dict `Path`
values (or non-dicts failing the `'Path'` test) — the draw operation
returns normally, whatever the node lists contain; malformed nodes only
shrink the output. -/
theorem draw_below_total_on_wellformed (scaleParam exponent : ℝ) (N : ℕ) (v : PyVal)
    (hw : wf_layer v = true) :
    ∃ r, draw_below scaleParam exponent N v = .ok r := by
  unfold draw_below
  cases v with
  | dict kvs =>
    by_cases ht : pyTruthy (PyVal.dict kvs) = true
    · rw [if_pos ht]
      have hw' : (match dictGet kvs "shapes" with
          | some sv => !pyTruthy sv || (pySized sv && (pyIterCore sv).all wf_shape)
          | Option.none => true) = true := by
        unfold wf_layer at hw
        rw [ht] at hw
        simpa using hw
      rw [show pyGet (.dict kvs) "shapes" (.list [])
          = .ok ((dictGet kvs "shapes").getD (.list [])) from rfl, exbind_ok]
      cases hs : dictGet kvs "shapes" with
      | none =>
        simp only [Option.getD_none]
        rw [if_neg (by simp [pyTruthy])]
        exact ⟨_, rfl⟩
      | some sv =>
        simp only [hs] at hw'
        simp only [Option.getD_some]
        by_cases hts : pyTruthy sv = true
        · have hw2 : pySized sv = true ∧ (pyIterCore sv).all wf_shape = true := by
            rw [hts] at hw'
            simpa using hw'
          rw [if_pos hts, show pyIter sv = .ok (pyIterCore sv) from by
            unfold pyIter
            rw [if_pos hw2.1], exbind_ok]
          exact per_shape_all_ok scaleParam exponent N _ hw2.2
        · rw [if_neg hts]
          exact ⟨_, rfl⟩
    · rw [if_neg ht]
      exact ⟨_, rfl⟩
  | list xs =>
    by_cases ht : pyTruthy (PyVal.list xs) = true
    · simp [wf_layer, ht] at hw
    · rw [if_neg ht]
      exact ⟨_, rfl⟩
  | str s =>
    by_cases ht : pyTruthy (PyVal.str s) = true
    · simp [wf_layer, ht] at hw
    · rw [if_neg ht]
      exact ⟨_, rfl⟩
  | num q =>
    by_cases ht : pyTruthy (PyVal.num q) = true
    · simp [wf_layer, ht] at hw
    · rw [if_neg ht]
      exact ⟨_, rfl⟩
  | pyNone =>
    rw [if_neg (by simp [pyTruthy])]
    exact ⟨_, rfl⟩

/-- A well-formed layer whose node list holds junk: a bare number, a
string, and an off-curve node with no coordinates. -/
def wfDemoLayer : PyVal := .dict [("shapes", .list [.dict [("Path", .dict [("nodes",
  .list [.num 1, .str "junk", .dict [("type", .str "o")]])])]])]

/-- Witness for C2's amended claim: the draw returns normally on
`wfDemoLayer` despite its junk nodes. -/
theorem draw_below_total_on_wellformed_witness :
    ∃ r, draw_below 50 1 50 wfDemoLayer = .ok r :=
  draw_below_total_on_wellformed 50 1 50 wfDemoLayer (by decide)

/-! ### Claim C3 -/

/-- A successful run of the shape loop is pointwise: the result at index
`k` is exactly the per-shape output of the shape at index `k`. -/
lemma per_shape_all_get (scaleParam exponent : ℝ) (N : ℕ) :
    ∀ (l : List PyVal) (r : List (List Tooth)),
      per_shape_all scaleParam exponent N l = .ok r →
      ∀ (k : ℕ), (l[k]?).map (per_shape scaleParam exponent N) = (r[k]?).map Except.ok := by
  intro l
  induction l with
  | nil =>
    intro r hr k
    have : r = [] := (Except.ok.inj hr).symm
    subst this
    simp
  | cons x xs ih =>
    intro r hr k
    rw [show per_shape_all scaleParam exponent N (x :: xs)
        = (per_shape scaleParam exponent N x >>= fun t =>
            per_shape_all scaleParam exponent N xs >>= fun ts => pure (t :: ts)) from rfl] at hr
    cases hx : per_shape scaleParam exponent N x with
    | error e =>
      rw [hx, exbind_error] at hr
      exact Except.noConfusion hr
    | ok t =>
      rw [hx, exbind_ok] at hr
      cases hxs : per_shape_all scaleParam exponent N xs with
      | error e =>
        rw [hxs, exbind_error] at hr
        exact Except.noConfusion hr
      | ok ts =>
        rw [hxs, exbind_ok] at hr
        have : t :: ts = r := Except.ok.inj hr
        subst this
        cases k with
        | zero => simp [hx]
        | succ k =>
          simp only [List.getElem?_cons_succ]
          exact ih ts hxs k

/-- Claim C3: in one draw call over several paths, the teeth (and in
particular their colors) emitted for the shape at index `k` depend only
on that shape: two successful runs whose shape lists agree at `k` (and in
length) produce identical teeth and colors for index `k`, whatever the
other paths' node lists are. -/
theorem path_color_scale_independent (scaleParam exponent : ℝ) (N : ℕ)
    (shapes1 shapes2 : List PyVal) (k : ℕ) (r1 r2 : List (List Tooth))
    (hlen : shapes1.length = shapes2.length)
    (hk : shapes1[k]? = shapes2[k]?)
    (h1 : draw_below scaleParam exponent N (.dict [("shapes", .list shapes1)]) = .ok r1)
    (h2 : draw_below scaleParam exponent N (.dict [("shapes", .list shapes2)]) = .ok r2) :
    r1[k]? = r2[k]?
    ∧ (r1[k]?).map (List.map Tooth.color) = (r2[k]?).map (List.map Tooth.color) := by
  have key : ∀ (sl : List PyVal) (r : List (List Tooth)),
      draw_below scaleParam exponent N (.dict [("shapes", .list sl)]) = .ok r →
      (sl = [] ∧ r = []) ∨ per_shape_all scaleParam exponent N sl = .ok r := by
    intro sl r h
    unfold draw_below at h
    rw [if_pos (show pyTruthy (.dict [("shapes", PyVal.list sl)]) = true from rfl),
      show pyGet (.dict [("shapes", PyVal.list sl)]) "shapes" (.list [])
        = .ok (.list sl) from rfl, exbind_ok] at h
    cases sl with
    | nil =>
      rw [if_neg (by simp [pyTruthy])] at h
      exact Or.inl ⟨rfl, (Except.ok.inj h).symm⟩
    | cons a as =>
      rw [if_pos (show pyTruthy (PyVal.list (a :: as)) = true from by simp [pyTruthy]),
        show pyIter (PyVal.list (a :: as)) = .ok (a :: as) from rfl, exbind_ok] at h
      exact Or.inr h
  have inj : Function.Injective (Except.ok : List Tooth → Except PyErr (List Tooth)) :=
    fun a b hab => Except.ok.inj hab
  rcases key shapes1 r1 h1 with ⟨he1, hr1⟩ | hps1
  · rcases key shapes2 r2 h2 with ⟨he2, hr2⟩ | hps2
    · subst hr1
      subst hr2
      simp
    · subst he1
      rw [List.length_nil] at hlen
      have : shapes2 = [] := List.eq_nil_of_length_eq_zero hlen.symm
      subst this
      subst hr1
      have : r2 = [] := by
        have h0 := per_shape_all_get scaleParam exponent N [] r2 hps2 0
        simp at h0
        cases r2 with
        | nil => rfl
        | cons b bs => simp at h0
      subst this
      simp
  · rcases key shapes2 r2 h2 with ⟨he2, hr2⟩ | hps2
    · subst he2
      rw [List.length_nil] at hlen
      have : shapes1 = [] := List.eq_nil_of_length_eq_zero hlen
      subst this
      subst hr2
      have : r1 = [] := by
        have h0 := per_shape_all_get scaleParam exponent N [] r1 hps1 0
        simp at h0
        cases r1 with
        | nil => rfl
        | cons b bs => simp at h0
      subst this
      simp
    · have g1 := per_shape_all_get scaleParam exponent N shapes1 r1 hps1 k
      have g2 := per_shape_all_get scaleParam exponent N shapes2 r2 hps2 k
      rw [hk] at g1
      have hmap : (r1[k]?).map Except.ok = (r2[k]?).map Except.ok := g1.symm.trans g2
      have hkk : r1[k]? = r2[k]? := Option.map_injective inj hmap
      exact ⟨hkk, by rw [hkk]⟩

/-- Witness for C3: two identical single-shape runs (the shape has no
`Path`, so each produces an empty tooth list) agree at index 0. -/
theorem path_color_scale_independent_witness :
    ([([] : List Tooth)])[0]? = ([([] : List Tooth)])[0]? :=
  (path_color_scale_independent 50 1 50 [PyVal.dict []] [PyVal.dict []] 0 [[]] [[]]
    rfl rfl (by rfl) (by rfl)).1

end CurvatureComb
